import Mathlib

/-!
Verification of the Azure image-analysis proxy (Express controller
`analyzeController` with its `validation` utilities) against its
natural-language specification.

The JavaScript source is shallowly embedded: the exported pure helpers
(`sanitizeUrl`, `validateImageUrl`) become Lean functions on an explicit
model of JavaScript values; the two request handlers (`analyzeFromUrl`,
`analyzeFromUpload`) become functions from a request model and a modelled
upstream outcome to a handler result that records whether the outbound
call was issued and which JSON envelope is produced.  All definitions are
executable (structural or fuel-bounded recursion) so concrete runs reduce
in the kernel.
-/

namespace AzureVision

/-- Model of a JavaScript runtime value, used for the exported validation
utilities whose behaviour on non-string inputs matters (`typeof` guard).
Array elements are themselves values. -/
inductive JsVal where
  | undef : JsVal
  | nullV : JsVal
  | boolV (b : Bool) : JsVal
  | numV (n : Int) : JsVal
  | strV (s : String) : JsVal
  | arrV (xs : List JsVal) : JsVal
  | objV : JsVal

/-- The ASCII part of the JavaScript whitespace class used by
`String.prototype.trim` and the regex class `\s` (tab, LF, VT, FF, CR,
space).  Non-ASCII whitespace code points are outside the claims. -/
def isJsWhitespace (c : Char) : Bool :=
  c == ' ' || c == '\t' || c == '\n' || c == '\x0b' || c == '\x0c' || c == '\r'

/-- `String.prototype.trim` on the character list: drop JS whitespace from
both ends. -/
def trimChars (l : List Char) : List Char :=
  ((l.dropWhile isJsWhitespace).reverse.dropWhile isJsWhitespace).reverse

/-- The regex word class `\w` = `[A-Za-z0-9_]` (ASCII, unaffected by the
`i` flag). -/
def isJsWordChar (c : Char) : Bool :=
  c.isAlpha || c.isDigit || c == '_'

/-- Case-insensitive literal match: if `s` starts with `pat` up to ASCII
case, return the remainder after the match. -/
def matchCI : List Char → List Char → Option (List Char)
  | [], s => some s
  | _ :: _, [] => none
  | p :: ps, c :: cs => if c.toLower = p.toLower then matchCI ps cs else none

/-- Case-sensitive literal match, returning the remainder. -/
def matchExact : List Char → List Char → Option (List Char)
  | [], s => some s
  | _ :: _, [] => none
  | p :: ps, c :: cs => if c = p then matchExact ps cs else none

/-- One attempted match of `/javascript:/i` anchored at the head of the
list, returning the remainder after the match. -/
def tryJsAt (s : List Char) : Option (List Char) :=
  matchCI ("javascript:".data) s

/-- One attempted match of `/on\w+\s*=/i` anchored at the head of the
list.  `\w+` and `\s*` are maximal-munch here, which agrees with the
backtracking regex because the three character classes involved are
pairwise disjoint. -/
def tryOnAt (s : List Char) : Option (List Char) :=
  match s with
  | o :: n :: rest =>
    if o.toLower = 'o' && n.toLower = 'n' then
      let w := rest.span isJsWordChar
      if w.1.isEmpty then none
      else
        let sp := w.2.span isJsWhitespace
        match sp.2 with
        | '=' :: rest3 => some rest3
        | _ => none
    else none
  | _ => none

/-- Scan the body of a script element for the first case-insensitive
`</script>`, consuming intermediate characters (this is what the pattern
`[^<]*(?:(?!<\/script>)<[^<]*)*<\/script>` does: it is deterministic, the
lookahead forbids the star from crossing a closing tag). Returns the
remainder after the closing tag, or `none` when no closing tag exists. -/
def scanToCloseScript : List Char → Option (List Char)
  | [] => none
  | c :: cs =>
    if c = '<' then
      match matchCI ("</script>".data) (c :: cs) with
      | some r => some r
      | none => scanToCloseScript cs
    else scanToCloseScript cs

/-- One attempted match of the script-stripping regex
`/<script\b[^<]*(?:(?!<\/script>)<[^<]*)*<\/script>/i` anchored at the
head of the list.  The `\b` after `<script` requires the next character
(if any) to be a non-word character. -/
def tryScriptAt (s : List Char) : Option (List Char) :=
  match matchCI ("<script".data) s with
  | none => none
  | some rest =>
    match rest with
    | [] => none
    | c :: _ => if isJsWordChar c then none else scanToCloseScript rest

/-- Global regex replacement with the empty string: scan left to right,
at each position attempt the match; on success drop the matched characters
and resume after them (the JavaScript `replace` with the `g` flag never
rescans inside a replacement), otherwise keep the character and move on.
The fuel argument only bounds the recursion; `length + 1` always
suffices because every step consumes at least one character. -/
def stripPass (att : List Char → Option (List Char)) : Nat → List Char → List Char
  | 0, l => l
  | _ + 1, [] => []
  | fuel + 1, c :: cs =>
    match att (c :: cs) with
    | some rest => stripPass att fuel rest
    | none => c :: stripPass att fuel cs

/-- The string pipeline of `sanitizeUrl` on an actual string: trim, strip
`<script>...</script>` fragments, strip `javascript:` fragments, strip
`on<word>=` fragments, each as a single global pass. -/
def sanitizeString (s : String) : String :=
  let t0 := trimChars s.data
  let t1 := stripPass tryScriptAt (t0.length + 1) t0
  let t2 := stripPass tryJsAt (t1.length + 1) t1
  let t3 := stripPass tryOnAt (t2.length + 1) t2
  String.mk t3

/-- `exports.sanitizeUrl`: non-strings (by the `typeof` guard) map to the
empty string, strings go through the sanitization pipeline. -/
def sanitizeUrl : JsVal → String
  | JsVal.strV s => sanitizeString s
  | _ => ""

/-- WHATWG URL preprocessing performed by `new URL`: strip leading and
trailing C0 controls and spaces, then remove every tab, LF and CR. -/
def urlPreprocess (s : String) : String :=
  let c0sp := fun (c : Char) => decide (c.toNat ≤ 0x20)
  let t := ((s.data.dropWhile c0sp).reverse.dropWhile c0sp).reverse
  String.mk (t.filter fun c => !(c == '\t' || c == '\n' || c == '\r'))

/-- The scheme component recognised by `new URL` on an absolute URL: one
ASCII letter followed by letters, digits, `+`, `-` or `.`, terminated by
a colon; the result is lowercased.  A string with no such prefix fails to
parse absolutely (the controller passes no base URL). -/
def parseScheme (s : String) : Option String :=
  match (urlPreprocess s).data with
  | [] => none
  | c :: cs =>
    if c.isAlpha then
      let p := (c :: cs).span fun ch => ch.isAlpha || ch.isDigit || ch == '+' || ch == '-' || ch == '.'
      match p.2 with
      | ':' :: _ => some (String.mk (p.1.map Char.toLower))
      | _ => none
    else none

/-- A JSON value, as produced by `JSON.parse` and by the JSON body
parser that feeds the URL-mode handler.  Numeric literals are kept as
written; their numeric value is never inspected by the program. -/
inductive Json where
  | null : Json
  | bool (b : Bool) : Json
  | num (lit : String) : Json
  | str (s : String) : Json
  | arr (elems : List Json) : Json
  | obj (members : List (String × Json)) : Json

/-- Decidable equality for `Json` (the nested occurrence of `List Json`
prevents automatic derivation). -/
def Json.decEq : (a b : Json) → Decidable (a = b)
  | .null, .null => isTrue rfl
  | .bool b1, .bool b2 =>
    match Bool.decEq b1 b2 with
    | isTrue h => isTrue (by rw [h])
    | isFalse h => isFalse (by intro hh; injection hh; contradiction)
  | .num v, .num w =>
    match String.decEq v w with
    | isTrue h => isTrue (by rw [h])
    | isFalse h => isFalse (by intro hh; injection hh; contradiction)
  | .str v, .str w =>
    match String.decEq v w with
    | isTrue h => isTrue (by rw [h])
    | isFalse h => isFalse (by intro hh; injection hh; contradiction)
  | .arr xs, .arr ys =>
    match goArr xs ys with
    | isTrue h => isTrue (by rw [h])
    | isFalse h => isFalse (by intro hh; injection hh; contradiction)
  | .obj xs, .obj ys =>
    match goObj xs ys with
    | isTrue h => isTrue (by rw [h])
    | isFalse h => isFalse (by intro hh; injection hh; contradiction)
  | .null, .bool _ => isFalse nofun
  | .null, .num _ => isFalse nofun
  | .null, .str _ => isFalse nofun
  | .null, .arr _ => isFalse nofun
  | .null, .obj _ => isFalse nofun
  | .bool _, .null => isFalse nofun
  | .bool _, .num _ => isFalse nofun
  | .bool _, .str _ => isFalse nofun
  | .bool _, .arr _ => isFalse nofun
  | .bool _, .obj _ => isFalse nofun
  | .num _, .null => isFalse nofun
  | .num _, .bool _ => isFalse nofun
  | .num _, .str _ => isFalse nofun
  | .num _, .arr _ => isFalse nofun
  | .num _, .obj _ => isFalse nofun
  | .str _, .null => isFalse nofun
  | .str _, .bool _ => isFalse nofun
  | .str _, .num _ => isFalse nofun
  | .str _, .arr _ => isFalse nofun
  | .str _, .obj _ => isFalse nofun
  | .arr _, .null => isFalse nofun
  | .arr _, .bool _ => isFalse nofun
  | .arr _, .num _ => isFalse nofun
  | .arr _, .str _ => isFalse nofun
  | .arr _, .obj _ => isFalse nofun
  | .obj _, .null => isFalse nofun
  | .obj _, .bool _ => isFalse nofun
  | .obj _, .num _ => isFalse nofun
  | .obj _, .str _ => isFalse nofun
  | .obj _, .arr _ => isFalse nofun
where
  goArr : (xs ys : List Json) → Decidable (xs = ys)
    | [], [] => isTrue rfl
    | x :: xs, y :: ys =>
      match Json.decEq x y, goArr xs ys with
      | isTrue h1, isTrue h2 => isTrue (by rw [h1, h2])
      | isFalse h1, _ => isFalse (by intro hh; injection hh; contradiction)
      | _, isFalse h2 => isFalse (by intro hh; injection hh; contradiction)
    | [], _ :: _ => isFalse nofun
    | _ :: _, [] => isFalse nofun
  goObj : (xs ys : List (String × Json)) → Decidable (xs = ys)
    | [], [] => isTrue rfl
    | (k1, v1) :: xs, (k2, v2) :: ys =>
      match String.decEq k1 k2, Json.decEq v1 v2, goObj xs ys with
      | isTrue h0, isTrue h1, isTrue h2 => isTrue (by rw [h0, h1, h2])
      | isFalse h0, _, _ =>
        isFalse (by intro hh; injection hh with hh1 hh2; exact h0 (congrArg Prod.fst hh1))
      | _, isFalse h1, _ =>
        isFalse (by intro hh; injection hh with hh1 hh2; exact h1 (congrArg Prod.snd hh1))
      | _, _, isFalse h2 => isFalse (by intro hh; injection hh with hh1 hh2; contradiction)
    | [], _ :: _ => isFalse nofun
    | _ :: _, [] => isFalse nofun

instance : DecidableEq Json := Json.decEq

deriving instance DecidableEq for Except

/-- The JSON insignificant-whitespace skipper (space, tab, LF, CR). -/
def skipJsonWs (l : List Char) : List Char :=
  l.dropWhile fun c => c == ' ' || c == '\t' || c == '\n' || c == '\r'

/-- Value of a hexadecimal digit. -/
def hexVal (c : Char) : Option Nat :=
  if c.isDigit then some (c.toNat - '0'.toNat)
  else if 'a' ≤ c.toLower && c.toLower ≤ 'f' then some (c.toLower.toNat - 'a'.toNat + 10)
  else none

/-- Parse the body of a JSON string literal (the opening quote already
consumed): returns the decoded characters and the remainder after the
closing quote.  Escapes are decoded; unescaped control characters are a
parse error, as in `JSON.parse`.  Surrogate pairing of `\uXXXX` escapes
is not modelled (no claim exercises it). -/
def parseJStrBody : Nat → List Char → Option (List Char × List Char)
  | 0, _ => none
  | _ + 1, [] => none
  | fuel + 1, c :: cs =>
    if c = '"' then some ([], cs)
    else if c = '\\' then
      match cs with
      | [] => none
      | e :: cs2 =>
        if e = '"' then (parseJStrBody fuel cs2).map fun p => ('"' :: p.1, p.2)
        else if e = '\\' then (parseJStrBody fuel cs2).map fun p => ('\\' :: p.1, p.2)
        else if e = '/' then (parseJStrBody fuel cs2).map fun p => ('/' :: p.1, p.2)
        else if e = 'b' then (parseJStrBody fuel cs2).map fun p => ('\x08' :: p.1, p.2)
        else if e = 'f' then (parseJStrBody fuel cs2).map fun p => ('\x0c' :: p.1, p.2)
        else if e = 'n' then (parseJStrBody fuel cs2).map fun p => ('\n' :: p.1, p.2)
        else if e = 'r' then (parseJStrBody fuel cs2).map fun p => ('\r' :: p.1, p.2)
        else if e = 't' then (parseJStrBody fuel cs2).map fun p => ('\t' :: p.1, p.2)
        else if e = 'u' then
          match cs2 with
          | h1 :: h2 :: h3 :: h4 :: cs3 =>
            match hexVal h1, hexVal h2, hexVal h3, hexVal h4 with
            | some a, some b, some c2, some d =>
              (parseJStrBody fuel cs3).map fun p =>
                (Char.ofNat (((a * 16 + b) * 16 + c2) * 16 + d) :: p.1, p.2)
            | _, _, _, _ => none
          | _ => none
        else none
    else if c.toNat < 32 then none
    else (parseJStrBody fuel cs).map fun p => (c :: p.1, p.2)

/-- Parse a maximal JSON numeric literal at the head of the list,
returning its characters and the remainder.  A malformed tail (leading
zero followed by digits, a dot or exponent without digits) is simply not
consumed, which makes the enclosing parse fail exactly where
`JSON.parse` reports an error. -/
def parseJNum (l : List Char) : Option (List Char × List Char) :=
  let (negPart, l1) :=
    match l with
    | '-' :: t => (['-'], t)
    | _ => (([] : List Char), l)
  match l1 with
  | [] => none
  | d :: rest1 =>
    if !d.isDigit then none
    else
      let (intPart, l2) :=
        if d = '0' then ([d], rest1)
        else l1.span Char.isDigit
      let (fracPart, l3) :=
        match l2 with
        | '.' :: r =>
          let ds := r.span Char.isDigit
          if ds.1.isEmpty then (([] : List Char), l2) else ('.' :: ds.1, ds.2)
        | _ => (([] : List Char), l2)
      let (expPart, l4) :=
        match l3 with
        | e :: r =>
          if e = 'e' || e = 'E' then
            let (sgn, r2) :=
              match r with
              | '+' :: t => (['+'], t)
              | '-' :: t => (['-'], t)
              | _ => (([] : List Char), r)
            let ds := r2.span Char.isDigit
            if ds.1.isEmpty then (([] : List Char), l3) else (e :: (sgn ++ ds.1), ds.2)
          else (([] : List Char), l3)
        | _ => (([] : List Char), l3)
      some (negPart ++ intPart ++ fracPart ++ expPart, l4)

mutual

/-- Recursive-descent parser for a JSON value, mirroring `JSON.parse`.
The fuel only bounds nesting and enumeration; callers supply more fuel
than any input can consume. -/
def parseJValue : Nat → List Char → Option (Json × List Char)
  | 0, _ => none
  | fuel + 1, l =>
    match skipJsonWs l with
    | [] => none
    | c :: cs =>
      if c = '"' then
        (parseJStrBody (cs.length + 1) cs).map fun p => (Json.str (String.mk p.1), p.2)
      else if c = '[' then
        match skipJsonWs cs with
        | ']' :: rest => some (Json.arr [], rest)
        | l2 => (parseJArrItems fuel l2).map fun p => (Json.arr p.1, p.2)
      else if c = '{' then
        match skipJsonWs cs with
        | '}' :: rest => some (Json.obj [], rest)
        | l2 => (parseJObjMembers fuel l2).map fun p => (Json.obj p.1, p.2)
      else if c = 't' then
        (matchExact ("true".data) (c :: cs)).map fun r => (Json.bool true, r)
      else if c = 'f' then
        (matchExact ("false".data) (c :: cs)).map fun r => (Json.bool false, r)
      else if c = 'n' then
        (matchExact ("null".data) (c :: cs)).map fun r => (Json.null, r)
      else
        (parseJNum (c :: cs)).map fun p => (Json.num (String.mk p.1), p.2)

/-- Non-empty JSON array item list: value, then `]` to finish or `,` to
continue (trailing commas are a parse error, as in `JSON.parse`). -/
def parseJArrItems : Nat → List Char → Option (List Json × List Char)
  | 0, _ => none
  | fuel + 1, l =>
    match parseJValue fuel l with
    | none => none
    | some (j, rest) =>
      match skipJsonWs rest with
      | ']' :: rest2 => some ([j], rest2)
      | ',' :: rest2 =>
        match parseJArrItems fuel rest2 with
        | some (js, r) => some (j :: js, r)
        | none => none
      | _ => none

/-- Non-empty JSON object member list: string key, colon, value, then
`}` to finish or `,` to continue. -/
def parseJObjMembers : Nat → List Char → Option (List (String × Json) × List Char)
  | 0, _ => none
  | fuel + 1, l =>
    match skipJsonWs l with
    | '"' :: cs =>
      match parseJStrBody (cs.length + 1) cs with
      | none => none
      | some (key, rest) =>
        match skipJsonWs rest with
        | ':' :: rest2 =>
          match parseJValue fuel rest2 with
          | none => none
          | some (v, rest3) =>
            match skipJsonWs rest3 with
            | '}' :: rest4 => some ([(String.mk key, v)], rest4)
            | ',' :: rest4 =>
              match parseJObjMembers fuel rest4 with
              | some (ms, r) => some ((String.mk key, v) :: ms, r)
              | none => none
            | _ => none
        | _ => none
    | _ => none

end

/-- `JSON.parse`: parse one value and require only whitespace after it;
`none` models a thrown `SyntaxError`. -/
def jsonParse (s : String) : Option Json :=
  match parseJValue (2 * s.length + 2) s.data with
  | some (j, rest) =>
    match skipJsonWs rest with
    | [] => some j
    | _ => none
  | none => none

/-- `exports.validateImageUrl`: `new URL(url)` must succeed and its
protocol must be `http:` or `https:`.  Scheme extraction is modelled
faithfully; the further host-shape validation `new URL` performs on
special schemes is not needed by any claim and is treated as accepting,
which can only make this model accept more, never reject more. -/
def validateImageUrl (url : String) : Bool :=
  match parseScheme url with
  | some sch => sch == "http" || sch == "https"
  | none => false

/-- The JSON envelope sent back to the client.  The fields every claim
talks about are kept: HTTP status, the `success` flag, and the `error`,
`details` and `code` strings.  Success payload and metadata carry no
claim-relevant information and are omitted. -/
structure Response where
  status : Nat
  success : Bool
  error : Option String := none
  details : Option String := none
  code : Option String := none
deriving Repr, DecidableEq

/-- Element-to-string conversion used by `Array.prototype.join`:
`null`/`undefined` elements become the empty string, nested arrays join
with commas, objects print as `[object Object]`. -/
def dispJson : Json → String
  | Json.null => ""
  | Json.bool b => if b then "true" else "false"
  | Json.num lit => lit
  | Json.str s => s
  | Json.arr xs => goList xs
  | Json.obj _ => "[object Object]"
where goList : List Json → String
  | [] => ""
  | [x] => dispJson x
  | x :: xs => dispJson x ++ "," ++ goList xs

/-- `Array.prototype.join(sep)` on a list of strings. -/
def joinStr (sep : String) : List String → String
  | [] => ""
  | [x] => x
  | x :: xs => x ++ sep ++ joinStr sep xs

/-- The fixed FeatureTag set (`validFeatures` in both handlers). -/
def validFeatures : List String :=
  ["Description", "Tags", "Objects", "Color",
   "ImageType", "Faces", "Adult", "Brands", "Categories"]

/-- The default feature selection applied when the caller supplies no
feature list. -/
def defaultFeatures : List Json :=
  [Json.str "Description", Json.str "Tags", Json.str "Objects", Json.str "Color"]

/-- `validFeatures.includes(f)` on an arbitrary JSON array element: only
a string equal to one of the fixed tags passes. -/
def isValidFeature : Json → Bool
  | Json.str s => validFeatures.contains s
  | _ => false

/-- The elements of a feature list that fail the membership test
(`features.filter(f => !validFeatures.includes(f))`). -/
def invalidFeaturesOf (fs : List Json) : List Json :=
  fs.filter fun f => !isValidFeature f

/-- The `details` string of the invalid-feature rejection: it enumerates
the offending tags and the whole valid set. -/
def featuresDetails (invalid : List Json) : String :=
  "Invalid features: " ++ joinStr ", " (invalid.map dispJson) ++
    ". Valid features are: " ++ joinStr ", " validFeatures

/-- The shared feature-name membership check: if any element of the list
is not a valid feature tag the whole request is rejected with a 400
envelope naming the offending tags, otherwise the list is passed through
unchanged. -/
def checkFeatureNames (fs : List Json) : Except Response (List Json) :=
  let invalid := invalidFeaturesOf fs
  if invalid.length > 0 then
    Except.error
      { status := 400, success := false, error := some "Invalid feature names",
        details := some (featuresDetails invalid) }
  else Except.ok fs

/-- The `features` field of a URL-mode JSON body, as seen by the
truthiness test `if (features)` followed by `Array.isArray`.  JavaScript
falsy values (`undefined` when absent, `null`, `0`, `""`, `false`) all
skip the branch exactly like an absent field, so they share the `absent`
constructor; arrays (truthy even when empty) and truthy non-arrays are
the other cases. -/
inductive FeaturesField where
  | absent : FeaturesField
  | nonArray : FeaturesField
  | arr (fs : List Json) : FeaturesField
deriving DecidableEq

/-- The URL-mode request body `{ url, features }`.  A missing, `null` or
otherwise falsy `url` and the empty string are both caught by the same
`if (!url)` guard, so `url` is modelled as an optional string (non-string
truthy `url` values are outside every claim). -/
structure UrlBody where
  url : Option String
  features : FeaturesField
deriving DecidableEq

/-- The parameters of the outbound URL-mode call to the vision service:
the sanitized URL forwarded as the JSON body and the feature list
forwarded (comma-joined) as the `visualFeatures` query parameter. -/
structure AzureUrlCall where
  url : String
  visualFeatures : List Json
deriving DecidableEq

/-- The parameters of the outbound upload-mode call: the binary payload
(represented by its size), its MIME type, and the feature list. -/
structure AzureUploadCall where
  size : Nat
  mimetype : String
  visualFeatures : List Json
deriving DecidableEq

/-- Outcome of a handler run: either the request was resolved locally
before any outbound call (`rejected`), or the outbound call was issued
with the recorded parameters and the response envelope was produced from
the upstream outcome (`called`). -/
inductive HandlerResult (α : Type) where
  | rejected (r : Response) : HandlerResult α
  | called (c : α) (r : Response) : HandlerResult α
deriving DecidableEq

/-- The envelope of a handler result, whichever way it was produced. -/
def HandlerResult.resp : HandlerResult α → Response
  | .rejected r => r
  | .called _ r => r

/-- Whether the handler resolved the request locally (no outbound call). -/
def HandlerResult.isRejected : HandlerResult α → Bool
  | .rejected _ => true
  | .called _ _ => false

/-- The forwarded feature list of a URL-mode result, when a call was
issued. -/
def HandlerResult.callFeaturesUrl : HandlerResult AzureUrlCall → Option (List Json)
  | .called c _ => some c.visualFeatures
  | .rejected _ => none

/-- The modelled outcome of the outbound `axios.post`: a success, an
HTTP error response carrying the upstream status and the embedded error
`code`/`message` (either may be absent), or a transport failure carrying
the client-side error code (`ECONNABORTED`, `ENOTFOUND`,
`ECONNREFUSED`, ...) with no response received. -/
inductive Upstream where
  | ok : Upstream
  | httpErr (status : Nat) (code : Option String) (message : Option String) : Upstream
  | transportErr (errCode : String) : Upstream
deriving Repr, DecidableEq

/-- JavaScript `m || d` on an optional string: an absent or empty
(falsy) message falls back to the default. -/
def jsOr (m : Option String) (d : String) : String :=
  match m with
  | some s => if s.isEmpty then d else s
  | none => d

/-- The 400 envelope for a missing (or falsy) URL. -/
def urlRequiredResp : Response :=
  { status := 400, success := false, error := some "Image URL is required",
    details := some "Please provide a valid image URL in the request body" }

/-- The validation phase of the URL-mode handler, exactly in source
order: presence, URL format, length bound, then the feature field.  On
success it yields the parameters of the outbound call, with the URL
sanitized and the default feature selection applied only when the field
was absent/falsy. -/
def validateUrlRequest (body : UrlBody) : Except Response AzureUrlCall :=
  match body.url with
  | none => Except.error urlRequiredResp
  | some url =>
    if url.isEmpty then Except.error urlRequiredResp
    else if !validateImageUrl url then
      Except.error
        { status := 400, success := false, error := some "Invalid URL format",
          details := some "URL must start with http:// or https:// and point to a valid image" }
    else if url.length > 2048 then
      Except.error
        { status := 400, success := false, error := some "URL too long",
          details := some "Image URL must be less than 2048 characters" }
    else
      let sanitizedUrl := sanitizeString url
      match body.features with
      | FeaturesField.absent => Except.ok { url := sanitizedUrl, visualFeatures := defaultFeatures }
      | FeaturesField.nonArray =>
        Except.error
          { status := 400, success := false, error := some "Invalid features format",
            details := some "Features must be an array of strings" }
      | FeaturesField.arr fs =>
        match checkFeatureNames fs with
        | Except.error r => Except.error r
        | Except.ok fsOk => Except.ok { url := sanitizedUrl, visualFeatures := fsOk }

/-- The URL-mode `catch` translation of an upstream HTTP error response:
the `switch` on the embedded error code runs first, and only its
`default` arm inspects the 429 status; the upstream status is always
surfaced unchanged. -/
def mapUrlHttpError (status : Nat) (code message : Option String) : Response :=
  let em : String × String :=
    match code with
    | some "InvalidImageUrl" =>
      ("Invalid or inaccessible image URL",
       "The image URL could not be accessed. Please ensure the URL is publicly accessible and points to a valid image file.")
    | some "InvalidImageFormat" =>
      ("Unsupported image format",
       "Supported formats: JPEG, PNG, GIF, BMP. Please provide an image in one of these formats.")
    | some "InvalidImageSize" =>
      ("Invalid image dimensions",
       "Image must be at least 50x50 pixels and no larger than 16,000x16,000 pixels.")
    | some "InvalidImage" =>
      ("Invalid or corrupted image",
       "The image file appears to be corrupted or is not a valid image.")
    | some "BadArgument" =>
      ("Invalid request parameters",
       jsOr message "One or more parameters in your request are invalid.")
    | _ =>
      if status == 429 then
        ("Rate limit exceeded",
         "Too many requests. Free tier allows 20 requests per minute. Please wait before trying again.")
      else
        ("Azure API error", jsOr message "An error occurred while processing your request.")
  { status := status, success := false, error := some em.1, details := some em.2, code := code }

/-- The URL-mode translation of a transport failure: timeout abort to
504, DNS failure or connection refusal to 503, anything else to the
generic 500. -/
def mapUrlTransport (errCode : String) : Response :=
  if errCode == "ECONNABORTED" then
    { status := 504, success := false, error := some "Request timeout",
      details := some "The image analysis request took too long. Please try again with a smaller image." }
  else if errCode == "ENOTFOUND" || errCode == "ECONNREFUSED" then
    { status := 503, success := false, error := some "Service unavailable",
      details := some "Unable to connect to Azure Computer Vision service. Please try again later." }
  else
    { status := 500, success := false, error := some "Failed to analyze image",
      details := some "An unexpected error occurred. Please try again later." }

/-- `exports.analyzeFromUrl`: validate; on failure resolve locally,
otherwise issue the outbound call and translate its outcome. -/
def analyzeFromUrl (body : UrlBody) (u : Upstream) : HandlerResult AzureUrlCall :=
  match validateUrlRequest body with
  | Except.error r => HandlerResult.rejected r
  | Except.ok call =>
    HandlerResult.called call
      (match u with
       | Upstream.ok => { status := 200, success := true }
       | Upstream.httpErr st c m => mapUrlHttpError st c m
       | Upstream.transportErr ec => mapUrlTransport ec)

/-- The uploaded file as the handler sees it (`req.file` from multer):
payload size in bytes, declared MIME type and original name. -/
structure UploadFile where
  size : Nat
  mimetype : String
  originalname : String := ""
deriving Repr, DecidableEq

/-- The upload-mode request: the optional file and the optional
`features` multipart text field. -/
structure UploadReq where
  file : Option UploadFile
  features : Option String
deriving Repr, DecidableEq

/-- The MIME types accepted in upload mode. -/
def validMimeTypes : List String :=
  ["image/jpeg", "image/png", "image/gif", "image/bmp", "image/webp"]

/-- `String.prototype.split(',')`: cut the character list at every
comma; adjacent commas yield empty pieces and the empty string yields a
single empty piece, as in JavaScript. -/
def splitOnComma : List Char → List (List Char)
  | [] => [[]]
  | c :: cs =>
    if c = ',' then [] :: splitOnComma cs
    else
      match splitOnComma cs with
      | h :: t => (c :: h) :: t
      | [] => [[c]]

/-- `s.split(',').map(f => f.trim())`. -/
def splitCommaTrim (s : String) : List String :=
  (splitOnComma s.data).map fun p => String.mk (trimChars p)

/-- Upload-mode feature-field handling: an absent or empty (falsy) field
keeps the default selection; otherwise `JSON.parse` is attempted first
(a parsed non-array is a format error), and on a parse failure the field
is split on commas with each piece trimmed; whichever parse succeeded is
then subjected to the feature-name membership check. -/
def parseUploadFeatures (featuresField : Option String) : Except Response (List Json) :=
  match featuresField with
  | none => Except.ok defaultFeatures
  | some s =>
    if s.isEmpty then Except.ok defaultFeatures
    else
      match jsonParse s with
      | some (Json.arr xs) => checkFeatureNames xs
      | some _ =>
        Except.error
          { status := 400, success := false, error := some "Invalid features format",
            details := some "Features must be an array of strings" }
      | none => checkFeatureNames ((splitCommaTrim s).map Json.str)

/-- The validation phase of the upload-mode handler, exactly in source
order: file presence, the 4 MiB upper size bound (413), the 1 KiB lower
size bound (400), the MIME allow-list (415), then the feature field. -/
def validateUploadRequest (req : UploadReq) : Except Response (UploadFile × List Json) :=
  match req.file with
  | none =>
    Except.error
      { status := 400, success := false, error := some "No image file provided",
        details := some "Please upload an image file using the \"image\" field name." }
  | some f =>
    if f.size > 4 * 1024 * 1024 then
      Except.error
        { status := 413, success := false, error := some "File too large",
          details := some "Image file must be less than 4MB. Please compress or resize your image." }
    else if f.size < 1024 then
      Except.error
        { status := 400, success := false, error := some "File too small",
          details := some "Image file must be at least 1KB. The uploaded file appears to be invalid or corrupted." }
    else if !validMimeTypes.contains f.mimetype then
      Except.error
        { status := 415, success := false, error := some "Unsupported file type",
          details := some ("File type \"" ++ f.mimetype ++
            "\" is not supported. Please upload a JPEG, PNG, GIF, BMP, or WEBP image.") }
    else
      match parseUploadFeatures req.features with
      | Except.error r => Except.error r
      | Except.ok fs => Except.ok (f, fs)

/-- The upload-mode `catch` translation of an upstream HTTP error
response: a smaller recognised-code `switch` (no `InvalidImageUrl`, no
`BadArgument`), whose `default` arm inspects the 429 status; the
upstream status is surfaced unchanged. -/
def mapUploadHttpError (status : Nat) (code message : Option String) : Response :=
  let em : String × String :=
    match code with
    | some "InvalidImageFormat" =>
      ("Unsupported image format",
       "The uploaded file is not a valid image or is corrupted. Supported formats: JPEG, PNG, GIF, BMP.")
    | some "InvalidImageSize" =>
      ("Invalid image dimensions",
       "Image must be at least 50x50 pixels and no larger than 16,000x16,000 pixels.")
    | some "InvalidImage" =>
      ("Invalid or corrupted image",
       "The uploaded file appears to be corrupted or is not a valid image.")
    | _ =>
      if status == 429 then
        ("Rate limit exceeded", "Too many requests. Please wait before trying again.")
      else
        ("Azure API error", jsOr message "An error occurred while processing your image.")
  { status := status, success := false, error := some em.1, details := some em.2, code := code }

/-- The upload-mode translation of a transport failure: only the timeout
abort is handled specifically (504); every other transport failure,
including DNS failure and connection refusal, falls through to the
generic 500. -/
def mapUploadTransport (errCode : String) : Response :=
  if errCode == "ECONNABORTED" then
    { status := 504, success := false, error := some "Request timeout",
      details := some "Image processing took too long. Please try with a smaller image." }
  else
    { status := 500, success := false, error := some "Failed to analyze uploaded image",
      details := some "An unexpected error occurred during image analysis." }

/-- `exports.analyzeFromUpload`: validate; on failure resolve locally,
otherwise issue the outbound call and translate its outcome. -/
def analyzeFromUpload (req : UploadReq) (u : Upstream) : HandlerResult AzureUploadCall :=
  match validateUploadRequest req with
  | Except.error r => HandlerResult.rejected r
  | Except.ok (f, fs) =>
    HandlerResult.called { size := f.size, mimetype := f.mimetype, visualFeatures := fs }
      (match u with
       | Upstream.ok => { status := 200, success := true }
       | Upstream.httpErr st c m => mapUploadHttpError st c m
       | Upstream.transportErr ec => mapUploadTransport ec)

/-- The error codes the URL-mode `switch` recognises with a dedicated
arm (everything else reaches the `default` arm). -/
def urlRecognizedCodes : List (Option String) :=
  [some "InvalidImageUrl", some "InvalidImageFormat", some "InvalidImageSize",
   some "InvalidImage", some "BadArgument"]

/-- The error codes the upload-mode `switch` recognises with a dedicated
arm. -/
def uploadRecognizedCodes : List (Option String) :=
  [some "InvalidImageFormat", some "InvalidImageSize", some "InvalidImage"]

/-! ## Supporting lemmas -/

/-- A successful case-insensitive literal match consumes exactly the
pattern's length. -/
theorem matchCI_length : ∀ (ps s r : List Char), matchCI ps s = some r →
    s.length = ps.length + r.length := by
  intro ps
  induction ps with
  | nil =>
    intro s r h
    simp only [matchCI] at h
    injection h with h2
    subst h2
    simp
  | cons p ps ih =>
    intro s r h
    cases s with
    | nil => simp [matchCI] at h
    | cons c cs =>
      simp only [matchCI] at h
      split at h
      · have h2 := ih cs r h
        simp only [List.length_cons]
        omega
      · exact absurd h (by simp)

/-- The closing-tag scan never grows the remainder. -/
theorem scanToCloseScript_length : ∀ (l r : List Char), scanToCloseScript l = some r →
    r.length ≤ l.length := by
  intro l
  induction l with
  | nil => intro r h; simp [scanToCloseScript] at h
  | cons c cs ih =>
    intro r h
    simp only [scanToCloseScript] at h
    split at h
    · split at h
      · rename_i r2 heq
        injection h with h2
        subst h2
        have h3 := matchCI_length _ _ _ heq
        simp only [List.length_cons] at h3 ⊢
        omega
      · have h4 := ih r h
        simp only [List.length_cons]
        omega
    · have h4 := ih r h
      simp only [List.length_cons]
      omega

/-- A `javascript:` match strictly shortens the list. -/
theorem tryJsAt_length : ∀ (s r : List Char), tryJsAt s = some r → r.length < s.length := by
  intro s r h
  simp only [tryJsAt] at h
  have h2 := matchCI_length _ _ _ h
  simp only [List.length_cons, List.length_nil] at h2
  omega

/-- A script-element match strictly shortens the list. -/
theorem tryScriptAt_length : ∀ (s r : List Char), tryScriptAt s = some r →
    r.length < s.length := by
  intro s r h
  simp only [tryScriptAt] at h
  split at h
  · exact absurd h (by simp)
  · rename_i rest heq
    have hm := matchCI_length _ _ _ heq
    simp only [List.length_cons, List.length_nil] at hm
    split at h
    · exact absurd h (by simp)
    · split at h
      · exact absurd h (by simp)
      · have hs := scanToCloseScript_length _ _ h
        omega

/-- An `on<word>=` match strictly shortens the list. -/
theorem tryOnAt_length : ∀ (s r : List Char), tryOnAt s = some r → r.length < s.length := by
  intro s r h
  simp only [tryOnAt] at h
  split at h
  · rename_i o n rest
    split at h
    · split at h
      · exact absurd h (by simp)
      · split at h
        · rename_i rest3 heq
          injection h with h2
          subst h2
          have hw : ((rest.span isJsWordChar).2).length ≤ rest.length := by
            rw [List.span_eq_take_drop]
            exact (List.dropWhile_sublist _).length_le
          have hsp : (((rest.span isJsWordChar).2).span isJsWhitespace).2.length ≤
              ((rest.span isJsWordChar).2).length := by
            rw [List.span_eq_take_drop]
            exact (List.dropWhile_sublist _).length_le
          rw [heq] at hsp
          simp only [List.length_cons] at hsp ⊢
          omega
        · exact absurd h (by simp)
    · exact absurd h (by simp)
  · exact absurd h (by simp)

/-- A replacement pass never grows the list when every match strictly
shrinks it. -/
theorem stripPass_length_le (att : List Char → Option (List Char))
    (hatt : ∀ l r, att l = some r → r.length < l.length) :
    ∀ (fuel : Nat) (l : List Char), (stripPass att fuel l).length ≤ l.length := by
  intro fuel
  induction fuel with
  | zero => intro l; exact Nat.le_refl _
  | succ n ih =>
    intro l
    cases l with
    | nil => simp [stripPass]
    | cons c cs =>
      simp only [stripPass]
      split
      · rename_i rest heq
        exact Nat.le_trans (ih rest) (Nat.le_of_lt (hatt _ _ heq))
      · simp only [List.length_cons]
        exact Nat.succ_le_succ (ih cs)

/-- A replacement pass that preserves the length did not fire at all:
it is the identity. -/
theorem stripPass_eq_of_length (att : List Char → Option (List Char))
    (hatt : ∀ l r, att l = some r → r.length < l.length) :
    ∀ (fuel : Nat) (l : List Char), (stripPass att fuel l).length = l.length →
      stripPass att fuel l = l := by
  intro fuel
  induction fuel with
  | zero => intro l _; rfl
  | succ n ih =>
    intro l h
    cases l with
    | nil => rfl
    | cons c cs =>
      cases heq : att (c :: cs) with
      | some rest =>
        have hstep : stripPass att (n + 1) (c :: cs) = stripPass att n rest := by
          simp only [stripPass, heq]
        have h1 := stripPass_length_le att hatt n rest
        have h2 := hatt _ _ heq
        rw [hstep] at h
        simp only [List.length_cons] at h h2
        exact absurd h (by omega)
      | none =>
        have hstep : stripPass att (n + 1) (c :: cs) = c :: stripPass att n cs := by
          simp only [stripPass, heq]
        rw [hstep] at h ⊢
        have h2 : (stripPass att n cs).length = cs.length := by
          simp only [List.length_cons] at h
          omega
        rw [ih cs h2]

/-- Trimming never grows the list. -/
theorem trimChars_length_le (l : List Char) : (trimChars l).length ≤ l.length := by
  have h1 : (l.dropWhile isJsWhitespace).length ≤ l.length :=
    (List.dropWhile_sublist _).length_le
  have h2 : ((l.dropWhile isJsWhitespace).reverse.dropWhile isJsWhitespace).length ≤
      (l.dropWhile isJsWhitespace).reverse.length :=
    (List.dropWhile_sublist _).length_le
  simp only [trimChars, List.length_reverse] at h2 ⊢
  omega

/-- Trimming that preserves the length removed nothing: it is the
identity. -/
theorem trimChars_eq_of_length (l : List Char) (h : (trimChars l).length = l.length) :
    trimChars l = l := by
  have hs1 : List.Sublist (l.dropWhile isJsWhitespace) l := List.dropWhile_sublist _
  have hs2 : List.Sublist ((l.dropWhile isJsWhitespace).reverse.dropWhile isJsWhitespace)
      (l.dropWhile isJsWhitespace).reverse := List.dropWhile_sublist _
  have hl1 := hs1.length_le
  have hl2 := hs2.length_le
  simp only [trimChars, List.length_reverse] at h hl2
  have e1 : (l.dropWhile isJsWhitespace).length = l.length := by omega
  have e2 : ((l.dropWhile isJsWhitespace).reverse.dropWhile isJsWhitespace).length =
      (l.dropWhile isJsWhitespace).reverse.length := by
    simp only [List.length_reverse]
    omega
  have q1 : l.dropWhile isJsWhitespace = l := hs1.eq_of_length e1
  have q2 : (l.dropWhile isJsWhitespace).reverse.dropWhile isJsWhitespace =
      (l.dropWhile isJsWhitespace).reverse := hs2.eq_of_length e2
  simp only [trimChars]
  rw [q2, List.reverse_reverse, q1]

/-- With status 429 and a code outside the URL-mode `switch`, the
`default` arm produces the rate-limit message. -/
theorem mapUrlHttpError_429_unrecognized (code message : Option String)
    (h : code ∉ urlRecognizedCodes) :
    (mapUrlHttpError 429 code message).error = some "Rate limit exceeded" := by
  simp only [urlRecognizedCodes] at h
  simp only [mapUrlHttpError]
  split <;> simp_all

/-- A code the URL-mode `switch` recognises never yields the rate-limit
message, even under status 429. -/
theorem mapUrlHttpError_429_recognized (code message : Option String)
    (h : code ∈ urlRecognizedCodes) :
    (mapUrlHttpError 429 code message).error ≠ some "Rate limit exceeded" := by
  simp only [urlRecognizedCodes, List.mem_cons, List.not_mem_nil, or_false] at h
  rcases h with rfl | rfl | rfl | rfl | rfl
  · rw [show (mapUrlHttpError 429 (some "InvalidImageUrl") message).error =
        some "Invalid or inaccessible image URL" from rfl]
    decide
  · rw [show (mapUrlHttpError 429 (some "InvalidImageFormat") message).error =
        some "Unsupported image format" from rfl]
    decide
  · rw [show (mapUrlHttpError 429 (some "InvalidImageSize") message).error =
        some "Invalid image dimensions" from rfl]
    decide
  · rw [show (mapUrlHttpError 429 (some "InvalidImage") message).error =
        some "Invalid or corrupted image" from rfl]
    decide
  · rw [show (mapUrlHttpError 429 (some "BadArgument") message).error =
        some "Invalid request parameters" from rfl]
    decide

/-- With status 429 and a code outside the upload-mode `switch`, the
`default` arm produces the rate-limit message. -/
theorem mapUploadHttpError_429_unrecognized (code message : Option String)
    (h : code ∉ uploadRecognizedCodes) :
    (mapUploadHttpError 429 code message).error = some "Rate limit exceeded" := by
  simp only [uploadRecognizedCodes] at h
  simp only [mapUploadHttpError]
  split <;> simp_all

/-- A code the upload-mode `switch` recognises never yields the
rate-limit message, even under status 429. -/
theorem mapUploadHttpError_429_recognized (code message : Option String)
    (h : code ∈ uploadRecognizedCodes) :
    (mapUploadHttpError 429 code message).error ≠ some "Rate limit exceeded" := by
  simp only [uploadRecognizedCodes, List.mem_cons, List.not_mem_nil, or_false] at h
  rcases h with rfl | rfl | rfl
  · rw [show (mapUploadHttpError 429 (some "InvalidImageFormat") message).error =
        some "Unsupported image format" from rfl]
    decide
  · rw [show (mapUploadHttpError 429 (some "InvalidImageSize") message).error =
        some "Invalid image dimensions" from rfl]
    decide
  · rw [show (mapUploadHttpError 429 (some "InvalidImage") message).error =
        some "Invalid or corrupted image" from rfl]
    decide

/-- Every error produced by the feature-name membership check is a 400
envelope with `success := false`. -/
theorem checkFeatureNames_error (fs : List Json) (r : Response)
    (h : checkFeatureNames fs = Except.error r) : r.status = 400 ∧ r.success = false := by
  simp only [checkFeatureNames] at h
  by_cases hl : (invalidFeaturesOf fs).length > 0
  · rw [if_pos hl] at h
    injection h with h2
    rw [← h2]
    exact ⟨rfl, rfl⟩
  · rw [if_neg hl] at h
    exact absurd h (by simp)

/-- Every error produced by upload-mode feature parsing is a 400
envelope with `success := false`. -/
theorem parseUploadFeatures_error (fo : Option String) (r : Response)
    (h : parseUploadFeatures fo = Except.error r) : r.status = 400 ∧ r.success = false := by
  simp only [parseUploadFeatures] at h
  split at h
  · exact absurd h (by simp)
  · split at h
    · exact absurd h (by simp)
    · split at h
      · exact checkFeatureNames_error _ _ h
      · injection h with h2
        rw [← h2]
        exact ⟨rfl, rfl⟩
      · exact checkFeatureNames_error _ _ h

/-- Every rejection of the URL-mode validation phase carries a
400-family status and `success := false`. -/
theorem validateUrlRequest_error (body : UrlBody) (r : Response)
    (h : validateUrlRequest body = Except.error r) :
    400 ≤ r.status ∧ r.status < 500 ∧ r.success = false := by
  obtain ⟨url, ff⟩ := body
  simp only [validateUrlRequest] at h
  split at h
  · injection h with h2
    rw [← h2]
    exact ⟨by decide, by decide, rfl⟩
  · split at h
    · injection h with h2
      rw [← h2]
      exact ⟨by decide, by decide, rfl⟩
    · split at h
      · injection h with h2
        rw [← h2]
        exact ⟨by decide, by decide, rfl⟩
      · split at h
        · injection h with h2
          rw [← h2]
          exact ⟨by decide, by decide, rfl⟩
        · split at h
          · exact absurd h (by simp)
          · injection h with h2
            rw [← h2]
            exact ⟨by decide, by decide, rfl⟩
          · split at h
            · rename_i r2 heq
              injection h with h2
              obtain ⟨hs, hf⟩ := checkFeatureNames_error _ _ heq
              rw [← h2]
              exact ⟨by rw [hs], by rw [hs]; decide, hf⟩
            · exact absurd h (by simp)

/-- Every rejection of the upload-mode validation phase carries a
400-family status and `success := false`. -/
theorem validateUploadRequest_error (req : UploadReq) (r : Response)
    (h : validateUploadRequest req = Except.error r) :
    400 ≤ r.status ∧ r.status < 500 ∧ r.success = false := by
  obtain ⟨file, feats⟩ := req
  simp only [validateUploadRequest] at h
  split at h
  · injection h with h2
    rw [← h2]
    exact ⟨by decide, by decide, rfl⟩
  · split at h
    · injection h with h2
      rw [← h2]
      exact ⟨by decide, by decide, rfl⟩
    · split at h
      · injection h with h2
        rw [← h2]
        exact ⟨by decide, by decide, rfl⟩
      · split at h
        · injection h with h2
          rw [← h2]
          exact ⟨by simp, by simp, rfl⟩
        · split at h
          · rename_i r2 heq
            injection h with h2
            obtain ⟨hs, hf⟩ := parseUploadFeatures_error _ _ heq
            rw [← h2]
            exact ⟨by rw [hs], by rw [hs]; decide, hf⟩
          · exact absurd h (by simp)

/-- The URL-mode handler resolves a request locally exactly when its
validation phase rejects it, and then with the same envelope. -/
theorem analyzeFromUrl_rejected_iff (body : UrlBody) (u : Upstream) (r : Response) :
    analyzeFromUrl body u = HandlerResult.rejected r ↔
      validateUrlRequest body = Except.error r := by
  unfold analyzeFromUrl
  cases hv : validateUrlRequest body <;> simp [hv]

/-- The upload-mode handler resolves a request locally exactly when its
validation phase rejects it, and then with the same envelope. -/
theorem analyzeFromUpload_rejected_iff (req : UploadReq) (u : Upstream) (r : Response) :
    analyzeFromUpload req u = HandlerResult.rejected r ↔
      validateUploadRequest req = Except.error r := by
  unfold analyzeFromUpload
  cases hv : validateUploadRequest req with
  | error r2 => simp [hv]
  | ok p => obtain ⟨f, fs⟩ := p; simp [hv]

/-! ## Claims -/

/-- C1 (counterexample): an upstream 429 whose embedded code is the
recognised `BadArgument` does **not** yield the message
`Rate limit exceeded` in URL mode — the code-specific translation wins,
so the claim as stated is false. -/
theorem C1_counterexample :
    (analyzeFromUrl { url := some "http://example.com/a.png", features := FeaturesField.absent }
        (Upstream.httpErr 429 (some "BadArgument") none)).resp.status = 429 ∧
    (analyzeFromUrl { url := some "http://example.com/a.png", features := FeaturesField.absent }
        (Upstream.httpErr 429 (some "BadArgument") none)).resp.error =
      some "Invalid request parameters" ∧
    (analyzeFromUrl { url := some "http://example.com/a.png", features := FeaturesField.absent }
        (Upstream.httpErr 429 (some "BadArgument") none)).resp.error ≠
      some "Rate limit exceeded" := by
  decide

/-- C1 (amended): an upstream 429 always surfaces status 429 in both
modes; the message is `Rate limit exceeded` if and only if the embedded
code is not one of the codes the mode's `switch` recognises (URL mode:
InvalidImageUrl, InvalidImageFormat, InvalidImageSize, InvalidImage,
BadArgument; upload mode: InvalidImageFormat, InvalidImageSize,
InvalidImage); and every recognised code keeps its code-specific
message even under status 429, enumerated for both modes. -/
theorem C1_rate_limit_429 (code message : Option String) :
    (mapUrlHttpError 429 code message).status = 429 ∧
    (mapUploadHttpError 429 code message).status = 429 ∧
    ((mapUrlHttpError 429 code message).error = some "Rate limit exceeded" ↔
      code ∉ urlRecognizedCodes) ∧
    ((mapUploadHttpError 429 code message).error = some "Rate limit exceeded" ↔
      code ∉ uploadRecognizedCodes) ∧
    (mapUrlHttpError 429 (some "InvalidImageUrl") message).error =
      some "Invalid or inaccessible image URL" ∧
    (mapUrlHttpError 429 (some "InvalidImageFormat") message).error =
      some "Unsupported image format" ∧
    (mapUrlHttpError 429 (some "InvalidImageSize") message).error =
      some "Invalid image dimensions" ∧
    (mapUrlHttpError 429 (some "InvalidImage") message).error =
      some "Invalid or corrupted image" ∧
    (mapUrlHttpError 429 (some "BadArgument") message).error =
      some "Invalid request parameters" ∧
    (mapUploadHttpError 429 (some "InvalidImageFormat") message).error =
      some "Unsupported image format" ∧
    (mapUploadHttpError 429 (some "InvalidImageSize") message).error =
      some "Invalid image dimensions" ∧
    (mapUploadHttpError 429 (some "InvalidImage") message).error =
      some "Invalid or corrupted image" := by
  refine ⟨rfl, rfl, ?_, ?_, rfl, rfl, rfl, rfl, rfl, rfl, rfl, rfl⟩
  · constructor
    · intro hrl hc
      exact mapUrlHttpError_429_recognized code message hc hrl
    · intro hc
      exact mapUrlHttpError_429_unrecognized code message hc
  · constructor
    · intro hrl hc
      exact mapUploadHttpError_429_recognized code message hc hrl
    · intro hc
      exact mapUploadHttpError_429_unrecognized code message hc

/-- C1 (witness): a concrete unrecognised code produces the rate-limit
message in URL mode, and `BadArgument` (recognised only in URL mode)
produces it in upload mode; both sides of the biconditional are
exercised at concrete codes. -/
theorem C1_rate_limit_429_witness :
    (mapUrlHttpError 429 (some "RateLimitExceeded") none).error = some "Rate limit exceeded" ∧
    (mapUploadHttpError 429 (some "BadArgument") none).error = some "Rate limit exceeded" ∧
    (mapUrlHttpError 429 (some "BadArgument") none).error ≠ some "Rate limit exceeded" :=
  ⟨(C1_rate_limit_429 (some "RateLimitExceeded") none).2.2.1.mpr (by decide),
   (C1_rate_limit_429 (some "BadArgument") none).2.2.2.1.mpr (by decide),
   fun hh => (by decide : some "BadArgument" ∉ urlRecognizedCodes → False)
     ((C1_rate_limit_429 (some "BadArgument") none).2.2.1.mp hh)⟩

/-- C2 (counterexample): in upload mode a connection-refused transport
failure produces the generic 500 outcome, not 503, so the claim as
stated is false. -/
theorem C2_counterexample :
    (analyzeFromUpload { file := some { size := 2048, mimetype := "image/png" }, features := none }
        (Upstream.transportErr "ECONNREFUSED")).resp.status = 500 ∧
    (analyzeFromUpload { file := some { size := 2048, mimetype := "image/png" }, features := none }
        (Upstream.transportErr "ECONNREFUSED")).resp.status ≠ 503 ∧
    (analyzeFromUpload { file := some { size := 2048, mimetype := "image/png" }, features := none }
        (Upstream.transportErr "ECONNREFUSED")).resp.error =
      some "Failed to analyze uploaded image" := by
  decide

/-- C2 (amended): a client-side timeout abort maps to 504 with the
timeout message in both modes; a DNS-resolution or connection-refused
condition maps to 503 with the service-unavailable message in URL mode
only — in upload mode those transport failures fall through to the
generic 500 outcome. -/
theorem C2_transport_mapping :
    (mapUrlTransport "ECONNABORTED").status = 504 ∧
    (mapUrlTransport "ECONNABORTED").error = some "Request timeout" ∧
    (mapUrlTransport "ENOTFOUND").status = 503 ∧
    (mapUrlTransport "ENOTFOUND").error = some "Service unavailable" ∧
    (mapUrlTransport "ECONNREFUSED").status = 503 ∧
    (mapUrlTransport "ECONNREFUSED").error = some "Service unavailable" ∧
    (mapUploadTransport "ECONNABORTED").status = 504 ∧
    (mapUploadTransport "ECONNABORTED").error = some "Request timeout" ∧
    (mapUploadTransport "ENOTFOUND").status = 500 ∧
    (mapUploadTransport "ECONNREFUSED").status = 500 := by
  decide

/-- C3: a URL whose (preprocessed) string has no scheme, or a scheme
other than http/https, is rejected by the URL-mode handler with a 400
envelope and no outbound call, whatever the feature field and whatever
the upstream would have answered. -/
theorem C3_non_http_scheme_rejected (s : String) (ff : FeaturesField) (u : Upstream)
    (h : parseScheme s = none ∨
      ∃ sch, parseScheme s = some sch ∧ sch ≠ "http" ∧ sch ≠ "https") :
    (analyzeFromUrl { url := some s, features := ff } u).isRejected = true ∧
    (analyzeFromUrl { url := some s, features := ff } u).resp.status = 400 ∧
    (analyzeFromUrl { url := some s, features := ff } u).resp.success = false := by
  have hv : validateImageUrl s = false := by
    unfold validateImageUrl
    rcases h with h | ⟨sch, hp, h1, h2⟩
    · rw [h]
    · rw [hp]
      simp [h1, h2]
  unfold analyzeFromUrl validateUrlRequest
  by_cases he : s.isEmpty = true
  · simp [he, HandlerResult.isRejected, HandlerResult.resp, urlRequiredResp]
  · simp [he, hv, HandlerResult.isRejected, HandlerResult.resp]

/-- C3 (witness): `javascript:alert(1)` is rejected locally with a 400
envelope. -/
theorem C3_non_http_scheme_rejected_witness :
    (analyzeFromUrl { url := some "javascript:alert(1)", features := FeaturesField.absent }
        Upstream.ok).isRejected = true ∧
    (analyzeFromUrl { url := some "javascript:alert(1)", features := FeaturesField.absent }
        Upstream.ok).resp.status = 400 ∧
    (analyzeFromUrl { url := some "javascript:alert(1)", features := FeaturesField.absent }
        Upstream.ok).resp.success = false :=
  C3_non_http_scheme_rejected "javascript:alert(1)" FeaturesField.absent Upstream.ok
    (Or.inr ⟨"javascript", by decide, by decide, by decide⟩)

/-- C4 (counterexample): `sanitizeUrl` is not idempotent — removing a
`javascript:` fragment can expose leading whitespace that only a second
pass trims away. -/
theorem C4_counterexample :
    sanitizeUrl (JsVal.strV (sanitizeUrl (JsVal.strV "javascript: x"))) ≠
      sanitizeUrl (JsVal.strV "javascript: x") ∧
    sanitizeUrl (JsVal.strV "javascript: x") = " x" ∧
    sanitizeUrl (JsVal.strV " x") = "x" := by
  decide

/-- C4 (amended): `sanitizeUrl` is not idempotent in general; a second
application is the identity precisely when (if and only if) the first
output is unmoved by trimming and by each of the three removal passes —
in particular any sanitized URL with no residual removable fragment and
no edge whitespace is a fixed point, and conversely a fixed point admits
no further trimming or removal. -/
theorem C4_sanitize_fixed_point (s : String) :
    sanitizeUrl (JsVal.strV (sanitizeUrl (JsVal.strV s))) = sanitizeUrl (JsVal.strV s) ↔
      (trimChars (sanitizeString s).data = (sanitizeString s).data ∧
       stripPass tryScriptAt ((sanitizeString s).data.length + 1) (sanitizeString s).data =
         (sanitizeString s).data ∧
       stripPass tryJsAt ((sanitizeString s).data.length + 1) (sanitizeString s).data =
         (sanitizeString s).data ∧
       stripPass tryOnAt ((sanitizeString s).data.length + 1) (sanitizeString s).data =
         (sanitizeString s).data) := by
  show sanitizeString (sanitizeString s) = sanitizeString s ↔ _
  generalize sanitizeString s = t
  constructor
  · intro h
    set a0 := trimChars t.data with ha0
    set a1 := stripPass tryScriptAt (a0.length + 1) a0 with ha1
    set a2 := stripPass tryJsAt (a1.length + 1) a1 with ha2
    set a3 := stripPass tryOnAt (a2.length + 1) a2 with ha3
    have hmk : sanitizeString t = String.mk a3 := by
      simp only [sanitizeString, ha3, ha2, ha1, ha0]
    rw [hmk] at h
    have h3eq : a3 = t.data := congrArg String.data h
    have l0 : a0.length ≤ t.data.length := by
      rw [ha0]
      exact trimChars_length_le t.data
    have l1 : a1.length ≤ a0.length := by
      rw [ha1]
      exact stripPass_length_le tryScriptAt tryScriptAt_length _ _
    have l2 : a2.length ≤ a1.length := by
      rw [ha2]
      exact stripPass_length_le tryJsAt tryJsAt_length _ _
    have l3 : a3.length ≤ a2.length := by
      rw [ha3]
      exact stripPass_length_le tryOnAt tryOnAt_length _ _
    have hlen : a3.length = t.data.length := by rw [h3eq]
    have e0 : a0 = t.data := by
      rw [ha0]
      exact trimChars_eq_of_length t.data (by rw [← ha0]; omega)
    have e1 : a1 = a0 := by
      rw [ha1]
      exact stripPass_eq_of_length tryScriptAt tryScriptAt_length _ _ (by rw [← ha1]; omega)
    have e2 : a2 = a1 := by
      rw [ha2]
      exact stripPass_eq_of_length tryJsAt tryJsAt_length _ _ (by rw [← ha2]; omega)
    have e3 : a3 = a2 := by
      rw [ha3]
      exact stripPass_eq_of_length tryOnAt tryOnAt_length _ _ (by rw [← ha3]; omega)
    refine ⟨e0, ?_, ?_, ?_⟩
    · rw [← e0, ← ha1]
      exact e1
    · rw [← e0, ← e1, ← ha2]
      exact e2
    · rw [← e0, ← e1, ← e2, ← ha3]
      exact e3
  · rintro ⟨h0, h1, h2, h3⟩
    simp only [sanitizeString]
    rw [h0, h1, h2, h3]

/-- C4 (witness): an ordinary image URL is a fixed point of the
sanitizer, via the stability characterization at a concrete string. -/
theorem C4_sanitize_fixed_point_witness :
    sanitizeUrl (JsVal.strV (sanitizeUrl (JsVal.strV "http://example.com/a.png"))) =
      sanitizeUrl (JsVal.strV "http://example.com/a.png") :=
  (C4_sanitize_fixed_point "http://example.com/a.png").mpr
    ⟨by decide, by decide, by decide, by decide⟩

/-- C5: in URL mode an entirely absent `features` field forwards exactly
the default list Description, Tags, Objects, Color, while an explicit
empty array forwards the empty list — the default is not applied. -/
theorem C5_default_vs_empty_features :
    analyzeFromUrl { url := some "http://example.com/a.png", features := FeaturesField.absent }
        Upstream.ok =
      HandlerResult.called { url := "http://example.com/a.png", visualFeatures := defaultFeatures }
        { status := 200, success := true } ∧
    analyzeFromUrl { url := some "http://example.com/a.png", features := FeaturesField.arr [] }
        Upstream.ok =
      HandlerResult.called { url := "http://example.com/a.png", visualFeatures := [] }
        { status := 200, success := true } ∧
    defaultFeatures =
      [Json.str "Description", Json.str "Tags", Json.str "Objects", Json.str "Color"] := by
  decide

/-- C6: upload-mode size validation accepts exactly 1024 bytes and
exactly 4·1024·1024 bytes, rejects 1023 bytes as too small and one byte
over 4 MiB as too large (413); the too-large check runs before the MIME
check and the too-small check runs before the MIME check (shown on
payloads with an unsupported type). -/
theorem C6_upload_size_bounds :
    (analyzeFromUpload { file := some { size := 1024, mimetype := "image/png" }, features := none }
        Upstream.ok).isRejected = false ∧
    (analyzeFromUpload { file := some { size := 1023, mimetype := "image/png" }, features := none }
        Upstream.ok).resp.status = 400 ∧
    (analyzeFromUpload { file := some { size := 1023, mimetype := "image/png" }, features := none }
        Upstream.ok).resp.error = some "File too small" ∧
    (analyzeFromUpload
        { file := some { size := 4 * 1024 * 1024, mimetype := "image/png" }, features := none }
        Upstream.ok).isRejected = false ∧
    (analyzeFromUpload
        { file := some { size := 4 * 1024 * 1024 + 1, mimetype := "image/png" }, features := none }
        Upstream.ok).resp.status = 413 ∧
    (analyzeFromUpload
        { file := some { size := 4 * 1024 * 1024 + 1, mimetype := "image/png" }, features := none }
        Upstream.ok).resp.error = some "File too large" ∧
    (analyzeFromUpload
        { file := some { size := 4 * 1024 * 1024 + 1, mimetype := "text/plain" }, features := none }
        Upstream.ok).resp.error = some "File too large" ∧
    (analyzeFromUpload { file := some { size := 10, mimetype := "text/plain" }, features := none }
        Upstream.ok).resp.error = some "File too small" := by
  decide

/-- C7: any feature list containing an unknown tag is rejected whole by
the shared membership check — in URL mode the handler resolves the
request locally with the 400 envelope whose details enumerate exactly
the offending tags and the full valid set, and the filtered list used in
the message contains every offending element and nothing else. -/
theorem C7_unknown_tag_rejects (fs : List Json) (u : Upstream)
    (h : ∃ f ∈ fs, isValidFeature f = false) :
    analyzeFromUrl { url := some "http://example.com/a.png", features := FeaturesField.arr fs } u =
      HandlerResult.rejected
        { status := 400, success := false, error := some "Invalid feature names",
          details := some (featuresDetails (invalidFeaturesOf fs)) } ∧
    checkFeatureNames fs =
      Except.error
        { status := 400, success := false, error := some "Invalid feature names",
          details := some (featuresDetails (invalidFeaturesOf fs)) } ∧
    (∀ f ∈ fs, isValidFeature f = false → f ∈ invalidFeaturesOf fs) ∧
    (∀ f ∈ invalidFeaturesOf fs, f ∈ fs ∧ isValidFeature f = false) := by
  obtain ⟨f0, hf0, hv0⟩ := h
  have hmem : f0 ∈ invalidFeaturesOf fs :=
    List.mem_filter.mpr ⟨hf0, by simp [hv0]⟩
  have hlen : (invalidFeaturesOf fs).length > 0 :=
    List.length_pos.mpr (List.ne_nil_of_mem hmem)
  have hchk : checkFeatureNames fs =
      Except.error
        { status := 400, success := false, error := some "Invalid feature names",
          details := some (featuresDetails (invalidFeaturesOf fs)) } := by
    simp only [checkFeatureNames]
    rw [if_pos hlen]
  have hval : validateUrlRequest
      { url := some "http://example.com/a.png", features := FeaturesField.arr fs } =
      (match checkFeatureNames fs with
       | Except.error r => Except.error r
       | Except.ok fsOk =>
         Except.ok { url := "http://example.com/a.png", visualFeatures := fsOk }) := rfl
  refine ⟨?_, hchk, ?_, ?_⟩
  · unfold analyzeFromUrl
    rw [hval, hchk]
  · intro f hf hvf
    exact List.mem_filter.mpr ⟨hf, by simp [hvf]⟩
  · intro f hf
    have h2 := List.mem_filter.mp hf
    exact ⟨h2.1, by simpa using h2.2⟩

/-- C7 (witness): the single unknown tag `Bogus` rejects the request
with the enumerating envelope. -/
theorem C7_unknown_tag_rejects_witness :
    analyzeFromUrl
        { url := some "http://example.com/a.png",
          features := FeaturesField.arr [Json.str "Bogus"] } Upstream.ok =
      HandlerResult.rejected
        { status := 400, success := false, error := some "Invalid feature names",
          details := some (featuresDetails (invalidFeaturesOf [Json.str "Bogus"])) } :=
  (C7_unknown_tag_rejects [Json.str "Bogus"] Upstream.ok
    ⟨Json.str "Bogus", by decide, by decide⟩).1

/-- C8: upload-mode feature parsing tries `JSON.parse` first and falls
back to a comma split with trimming; `"Tags, Objects"` parses to the two
tags, a JSON array parses structurally, and in either case the result is
handed to the membership check. -/
theorem C8_upload_feature_parsing :
    parseUploadFeatures (some "Tags, Objects") =
      Except.ok [Json.str "Tags", Json.str "Objects"] ∧
    splitCommaTrim "Tags, Objects" = ["Tags", "Objects"] ∧
    jsonParse "Tags, Objects" = none ∧
    jsonParse "[\"Tags\", \"Objects\"]" =
      some (Json.arr [Json.str "Tags", Json.str "Objects"]) ∧
    parseUploadFeatures (some "[\"Tags\", \"Objects\"]") =
      Except.ok [Json.str "Tags", Json.str "Objects"] ∧
    (∀ s : String, s.isEmpty = false → jsonParse s = none →
      parseUploadFeatures (some s) = checkFeatureNames ((splitCommaTrim s).map Json.str)) ∧
    (∀ (s : String) (xs : List Json), s.isEmpty = false → jsonParse s = some (Json.arr xs) →
      parseUploadFeatures (some s) = checkFeatureNames xs) := by
  refine ⟨by decide, by decide, by decide, by decide, by decide, ?_, ?_⟩
  · intro s hne hj
    simp only [parseUploadFeatures]
    rw [if_neg (by simp [hne]), hj]
  · intro s xs hne hj
    simp only [parseUploadFeatures]
    rw [if_neg (by simp [hne]), hj]

/-- C8 (witness): the two general parsing clauses instantiated at the
comma form and the JSON form. -/
theorem C8_upload_feature_parsing_witness :
    parseUploadFeatures (some "Tags, Objects") =
      checkFeatureNames ((splitCommaTrim "Tags, Objects").map Json.str) ∧
    parseUploadFeatures (some "[\"Tags\", \"Objects\"]") =
      checkFeatureNames [Json.str "Tags", Json.str "Objects"] :=
  ⟨C8_upload_feature_parsing.2.2.2.2.2.1 "Tags, Objects" (by decide) (by decide),
   C8_upload_feature_parsing.2.2.2.2.2.2 "[\"Tags\", \"Objects\"]"
     [Json.str "Tags", Json.str "Objects"] (by decide) (by decide)⟩

/-- C9: whenever a handler resolves a request locally, the envelope is
a 400-family one with `success := false`, and the outcome is the same
whatever the upstream would have answered — validation failures never
reach the outbound call, in either mode. -/
theorem C9_validation_never_forwards :
    (∀ (body : UrlBody) (u : Upstream) (r : Response),
      analyzeFromUrl body u = HandlerResult.rejected r →
        (400 ≤ r.status ∧ r.status < 500 ∧ r.success = false) ∧
        ∀ u2, analyzeFromUrl body u2 = HandlerResult.rejected r) ∧
    (∀ (req : UploadReq) (u : Upstream) (r : Response),
      analyzeFromUpload req u = HandlerResult.rejected r →
        (400 ≤ r.status ∧ r.status < 500 ∧ r.success = false) ∧
        ∀ u2, analyzeFromUpload req u2 = HandlerResult.rejected r) := by
  constructor
  · intro body u r h
    have hv := (analyzeFromUrl_rejected_iff body u r).mp h
    exact ⟨validateUrlRequest_error body r hv,
      fun u2 => (analyzeFromUrl_rejected_iff body u2 r).mpr hv⟩
  · intro req u r h
    have hv := (analyzeFromUpload_rejected_iff req u r).mp h
    exact ⟨validateUploadRequest_error req r hv,
      fun u2 => (analyzeFromUpload_rejected_iff req u2 r).mpr hv⟩

/-- C9 (witness): the missing-URL rejection is a 400 envelope and is
reproduced unchanged under a different upstream outcome. -/
theorem C9_validation_never_forwards_witness :
    (400 ≤ urlRequiredResp.status ∧ urlRequiredResp.status < 500 ∧
      urlRequiredResp.success = false) ∧
    analyzeFromUrl { url := none, features := FeaturesField.absent }
        (Upstream.transportErr "ECONNREFUSED") =
      HandlerResult.rejected urlRequiredResp := by
  have h := C9_validation_never_forwards.1 { url := none, features := FeaturesField.absent }
    Upstream.ok urlRequiredResp (by decide)
  exact ⟨h.1, h.2 (Upstream.transportErr "ECONNREFUSED")⟩

/-- C10: `sanitizeUrl` is total over the modelled JavaScript values and
returns the empty string on every non-string input instead of raising. -/
theorem C10_sanitizeUrl_total_nonstring (v : JsVal) (h : ∀ s, v ≠ JsVal.strV s) :
    sanitizeUrl v = "" := by
  cases v with
  | strV s => exact absurd rfl (h s)
  | undef => rfl
  | nullV => rfl
  | boolV b => rfl
  | numV n => rfl
  | arrV xs => rfl
  | objV => rfl

/-- C10 (witness): numbers, `null`, arrays and `undefined` all map to
the empty string. -/
theorem C10_sanitizeUrl_total_nonstring_witness :
    sanitizeUrl (JsVal.numV 42) = "" ∧ sanitizeUrl JsVal.nullV = "" ∧
    sanitizeUrl (JsVal.arrV [JsVal.strV "http://x"]) = "" ∧ sanitizeUrl JsVal.undef = "" :=
  ⟨C10_sanitizeUrl_total_nonstring (JsVal.numV 42) (fun _ => nofun),
   C10_sanitizeUrl_total_nonstring JsVal.nullV (fun _ => nofun),
   C10_sanitizeUrl_total_nonstring (JsVal.arrV [JsVal.strV "http://x"]) (fun _ => nofun),
   C10_sanitizeUrl_total_nonstring JsVal.undef (fun _ => nofun)⟩

end AzureVision
